import Mathlib

/-!
Verification development for the pwnpilot-lite orchestrator.

The Python modules are embedded shallowly:
* `core/action_classifier.py`  → `ActionClassifier`, `classify_action`, …
* `core/autonomous_manager.py` → `AutonomousManager`, `increment_iteration`, …
* `tools/tool_cache.py`        → `ToolResultCache`, `cache_get`, `cache_set`, …
* `session/session_manager.py` → `Entry`, `replayEntry`, `restore_session`, …
* `ui/cli.py` (autonomous loop)→ `run_autonomous_loop`, …

Machine reals (Python floats used for wall-clock time) are modelled as `Int`
timestamps; fallible code is modelled with `Except`.  Regular-expression
searches from `re.search` are compiled by hand into executable scanning
functions over `List Char`; each scanner is annotated with the regex it
implements.  Unicode-specific behaviour of Python's `str.lower` / `\w` is out
of scope: characters are treated ASCII-style, which is what the classifier's
patterns exercise.
-/

namespace PwnPilot

/-- Python `\w` word character (ASCII fragment): letters, digits, underscore. -/
def isWordChar (c : Char) : Bool := c.isAlphanum || c == '_'

/-- Python `str.lower` (ASCII fragment). -/
def pyLower (s : String) : String := ⟨s.data.map Char.toLower⟩

/-- Case-sensitive or case-insensitive literal match of `w` at index `i` of `s`. -/
def matchesAt (ci : Bool) (s : List Char) (i : Nat) (w : List Char) : Bool :=
  decide (i + w.length ≤ s.length) &&
    (((s.drop i).take w.length).zip w).all
      (fun p => if ci then p.1.toLower == p.2.toLower else p.1 == p.2)

/-- True when index `i` of `s` is past the end or holds a non-word character. -/
def noWordCharAt (s : List Char) (i : Nat) : Bool :=
  match s.get? i with
  | none => true
  | some c => !isWordChar c

/-- Case-insensitive match of the regex `\bw\b` at index `i` (for `w` made of
word characters, as all classifier keywords are). -/
def wordAtCI (s : List Char) (i : Nat) (w : List Char) : Bool :=
  matchesAt true s i w && (i == 0 || noWordCharAt s (i - 1)) && noWordCharAt s (i + w.length)

/-- Bounded existential over indices `0 … n-1`. -/
def existsIdx (n : Nat) (p : Nat → Bool) : Bool := (List.range n).any p

/-- Python `needle in hay` (case-sensitive substring test). -/
def containsSub (hay needle : String) : Bool :=
  existsIdx (hay.data.length + 1) (fun i => needle.data.isPrefixOf (hay.data.drop i))

/-- Case-insensitive `re.search(r"\bw\b", s)` for a word-character keyword `w`. -/
def wordSearchCI (w : String) (s : List Char) : Bool :=
  existsIdx (s.length + 1) (fun i => wordAtCI s i w.data)

/-- All characters of `s` in index range `[a, b)` differ from newline
(the span a Python `.*` has to cross without `re.DOTALL`). -/
def noNewlineBetween (s : List Char) (a b : Nat) : Bool :=
  ((s.drop a).take (b - a)).all (fun c => c != '\n')

/-- Python `\s` whitespace class (ASCII fragment). -/
def isPyWhitespace (c : Char) : Bool :=
  c == ' ' || c == '\t' || c == '\n' || c == '\r' || c == '\x0b' || c == '\x0c'

/-- `re.search(r"\brm\b.*(-rf|-r|-f)", s, re.IGNORECASE)`: a word-bounded `rm`
followed, on the same line, by `-r` or `-f` (the `-rf` alternative is
subsumed by `-r` under existential search). -/
def pat_rm (s : List Char) : Bool :=
  existsIdx (s.length + 1) (fun i =>
    wordAtCI s i ['r', 'm'] &&
      existsIdx (s.length + 1) (fun j =>
        decide (i + 2 ≤ j) &&
          (matchesAt true s j ['-', 'r'] || matchesAt true s j ['-', 'f']) &&
          noNewlineBetween s (i + 2) j))

/-- `re.search(r"\b(kill|pkill|killall)\b.*-9", s, re.IGNORECASE)`. -/
def pat_kill (s : List Char) : Bool :=
  ["kill", "pkill", "killall"].any (fun w =>
    existsIdx (s.length + 1) (fun i =>
      wordAtCI s i w.data &&
        existsIdx (s.length + 1) (fun j =>
          decide (i + w.length ≤ j) &&
            matchesAt true s j ['-', '9'] &&
            noNewlineBetween s (i + w.length) j)))

/-- `re.search(r">\s*/dev/", s, re.IGNORECASE)`. -/
def pat_dev (s : List Char) : Bool :=
  existsIdx s.length (fun i =>
    (s.getD i ' ' == '>') &&
      existsIdx (s.length + 1) (fun j =>
        decide (i + 1 ≤ j) &&
          matchesAt true s j ['/', 'd', 'e', 'v', '/'] &&
          ((s.drop (i + 1)).take (j - (i + 1))).all isPyWhitespace))

/-- `any(re.search(p, command, re.IGNORECASE) for p in DESTRUCTIVE_PATTERNS)`,
one disjunct per pattern of `ActionClassifier.DESTRUCTIVE_PATTERNS`. -/
def matchesDestructivePattern (command : String) : Bool :=
  let s := command.data
  pat_rm s                                              -- r"\brm\b.*(-rf|-r|-f)"
  || wordSearchCI "mkfs" s || wordSearchCI "dd" s       -- r"\b(mkfs|dd)\b"
  || wordSearchCI "shutdown" s || wordSearchCI "reboot" s
  || wordSearchCI "halt" s                              -- r"\b(shutdown|reboot|halt)\b"
  || pat_kill s                                         -- r"\b(kill|pkill|killall)\b.*-9"
  || pat_dev s                                          -- r">\s*/dev/"
  || wordSearchCI "format" s                            -- r"\bformat\b"
  || wordSearchCI "fdisk" s || wordSearchCI "parted" s  -- r"\b(fdisk|parted)\b"

/-- `ActionClassifier.LOCAL_FS_PATTERNS`; every pattern is a literal string
(`\$HOME` is the literal `$HOME`, `\.\.` the literal `..`), matched
case-sensitively. -/
def LOCAL_FS_PATTERNS : List String :=
  ["/home/", "/Users/", "/root/", "/etc/", "/var/", "/usr/", "$HOME", "~/", ".."]

/-- The `risky_keywords` list of `ActionClassifier._is_destructive`. -/
def riskyKeywords : List String :=
  ["drop table", "drop database", "truncate",
   "delete from", "--dump-all",
   "exploit", "payload",
   "reverse shell", "bind shell"]

/-- `ActionClassifier`: the scope state carried by the classifier. -/
structure ActionClassifier where
  scope_targets : List String
  scope_description : String
deriving Repr, DecidableEq

/-- `ActionClassifier._is_local_destructive`: an empty command is never local
destructive; otherwise some destructive pattern must match (case-insensitive)
and some local-filesystem pattern must occur (case-sensitive).  The nested
`for` loops of the source reduce to this conjunction because the inner loop
does not depend on which destructive pattern matched. -/
def is_local_destructive (command : String) : Bool :=
  if command == "" then false
  else matchesDestructivePattern command && LOCAL_FS_PATTERNS.any (containsSub command)

/-- `ActionClassifier._is_destructive`. -/
def is_destructive (command : String) : Bool :=
  if command == "" then false
  else matchesDestructivePattern command
    || riskyKeywords.any (fun k => containsSub (pyLower command) k)

/-- `ActionClassifier._is_in_scope`. -/
def is_in_scope (clf : ActionClassifier) (target_string : String) : Bool :=
  if clf.scope_targets.isEmpty then true
  else clf.scope_targets.any (fun t => containsSub (pyLower target_string) (pyLower t))

/-- A tool invocation's parameter dictionary (`tool_input`), with Python's
`dict.get(key, "")` lookup. -/
def tiGet (tool_input : List (String × String)) (key : String) : String :=
  (tool_input.lookup key).getD ""

/-- `ActionClassifier.classify_action`. -/
def classify_action (clf : ActionClassifier) (tool_name : String)
    (tool_input : List (String × String)) : String × String :=
  let command := tiGet tool_input "command"
  let target := tiGet tool_input "target"
  let url := tiGet tool_input "url"
  let all_targets := pyLower (command ++ " " ++ target ++ " " ++ url)
  let _ := tool_name
  if is_local_destructive command then
    ("FORBIDDEN", "Destructive action on local filesystem")
  else if !is_in_scope clf all_targets then
    ("FORBIDDEN", "Target is out of scope")
  else if is_destructive command then
    ("NEEDS_APPROVAL", "Destructive action requires approval")
  else
    ("SAFE", "Action is in scope and non-destructive")

/-! ## `core/autonomous_manager.py` -/

/-- `AutonomousManager.__init__` state.  `time.time()` values and the float
`iteration_delay` are modelled as `Int` instants/durations. -/
structure AutonomousManager where
  active : Bool
  max_iterations : Option Int
  max_tokens : Option Int
  iteration_delay : Int
  iterations : Int
  tokens_used : Int
  pause_requested : Bool
  last_iteration_time : Int
deriving Repr, DecidableEq

/-- `AutonomousManager(max_iterations, max_tokens, iteration_delay)`. -/
def AutonomousManager.init (max_iterations max_tokens : Option Int)
    (iteration_delay : Int) : AutonomousManager :=
  { active := false
    max_iterations := max_iterations
    max_tokens := max_tokens
    iteration_delay := iteration_delay
    iterations := 0
    tokens_used := 0
    pause_requested := false
    last_iteration_time := 0 }

/-- `AutonomousManager.start`.  Note: `last_iteration_time` is not reset. -/
def AutonomousManager.start (m : AutonomousManager) : AutonomousManager :=
  { m with active := true, iterations := 0, tokens_used := 0, pause_requested := false }

/-- `AutonomousManager.pause`. -/
def AutonomousManager.pauseReq (m : AutonomousManager) : AutonomousManager :=
  { m with pause_requested := true }

/-- `AutonomousManager.stop`. -/
def AutonomousManager.stop (m : AutonomousManager) : AutonomousManager :=
  { m with active := false, pause_requested := false }

/-- `AutonomousManager.increment_iteration`, called at clock instant `now`.
Returns the updated manager and the duration passed to `time.sleep`
(`0` when no sleep happens); the post-sleep `time.time()` reading is
modelled as `now + sleep`. -/
def AutonomousManager.increment_iteration (m : AutonomousManager) (now : Int) :
    AutonomousManager × Int :=
  if m.active then
    let sleep :=
      if m.last_iteration_time > 0 then
        let elapsed := now - m.last_iteration_time
        if elapsed < m.iteration_delay then m.iteration_delay - elapsed else 0
      else 0
    ({ m with iterations := m.iterations + 1, last_iteration_time := now + sleep }, sleep)
  else (m, 0)

/-- `AutonomousManager.add_tokens`. -/
def AutonomousManager.add_tokens (m : AutonomousManager) (token_count : Int) :
    AutonomousManager :=
  if m.active then { m with tokens_used := m.tokens_used + token_count } else m

/-- Python truthiness of an `Optional[int]` (`None` and `0` are falsy). -/
def optTruthy : Option Int → Bool
  | none => false
  | some n => n != 0

/-- `AutonomousManager.should_continue`. -/
def AutonomousManager.should_continue (m : AutonomousManager) : Bool :=
  if !m.active then false
  else if m.pause_requested then false
  else if optTruthy m.max_iterations && m.iterations ≥ (m.max_iterations.getD 0) then false
  else if optTruthy m.max_tokens && m.tokens_used ≥ (m.max_tokens.getD 0) then false
  else true

/-- Fold `increment_iteration` over a list of clock instants, discarding the
sleep amounts (the iteration-counting view of a run). -/
def runIncrements (m : AutonomousManager) : List Int → AutonomousManager
  | [] => m
  | t :: ts => runIncrements (m.increment_iteration t).1 ts

/-- Fold `add_tokens` over a list of token counts. -/
def runAddTokens (m : AutonomousManager) : List Int → AutonomousManager
  | [] => m
  | c :: cs => runAddTokens (m.add_tokens c) cs

/-! ## `tools/tool_cache.py` -/

/-- `ToolResultCache` state.  The result payloads are opaque and modelled as
strings; `time.time()` floats are modelled as `Int` instants.  The Python
`dict` cache becomes an association list with unique keys. -/
structure ToolResultCache where
  ttl_seconds : Int
  enabled : Bool
  cache : List (String × (String × Int))
  hits : Int
  misses : Int
  bypasses : Int
deriving Repr, DecidableEq

/-- `ToolResultCache(ttl_seconds, enabled)`. -/
def ToolResultCache.init (ttl_seconds : Int) (enabled : Bool) : ToolResultCache :=
  { ttl_seconds := ttl_seconds, enabled := enabled, cache := []
    hits := 0, misses := 0, bypasses := 0 }

/-- The comparison CPython's `sorted(payload.items())` applies when
`json.dumps(..., sort_keys=True)` serializes a dict: lexicographic on the
(key, value) pair. -/
def pairLe (a b : String × String) : Prop :=
  a.1 < b.1 ∨ (a.1 = b.1 ∧ a.2 ≤ b.2)

instance : DecidableRel pairLe := fun a b => by
  unfold pairLe; infer_instance

/-- Render a key-sorted association list the way `json.dumps` renders the
object (the exact punctuation is irrelevant to the proofs; only that the
string is a function of the sorted item list matters). -/
def dumpsSorted (payload : List (String × String)) : String :=
  let items := payload.insertionSort pairLe
  "\x7b" ++ String.intercalate ", "
    (items.map (fun kv => "\x22" ++ kv.1 ++ "\x22: \x22" ++ kv.2 ++ "\x22")) ++ "\x7d"

/-- `ToolResultCache._normalize_key`. -/
def normalize_key (tool_name : String) (payload : List (String × String)) : String :=
  tool_name ++ ":" ++ dumpsSorted payload

/-- Python dict assignment `d[k] = v`: replace in place if present, else append. -/
def dictInsert (l : List (String × (String × Int))) (k : String) (v : String × Int) :
    List (String × (String × Int)) :=
  if (l.lookup k).isSome then
    l.map (fun p => if p.1 == k then (k, v) else p)
  else l ++ [(k, v)]

/-- Python `del d[k]`. -/
def dictErase (l : List (String × (String × Int))) (k : String) :
    List (String × (String × Int)) :=
  l.filter (fun p => p.1 != k)

/-- `ToolResultCache.get`, evaluated at clock instant `now`.  Returns the
updated cache object and the `Optional` payload. -/
def cache_get (c : ToolResultCache) (now : Int) (tool_name : String)
    (payload : List (String × String)) : ToolResultCache × Option String :=
  if !c.enabled then ({ c with bypasses := c.bypasses + 1 }, none)
  else
    let cache_key := normalize_key tool_name payload
    match c.cache.lookup cache_key with
    | none => ({ c with misses := c.misses + 1 }, none)
    | some (result, timestamp) =>
      let age := now - timestamp
      if age > c.ttl_seconds then
        ({ c with cache := dictErase c.cache cache_key, misses := c.misses + 1 }, none)
      else
        ({ c with hits := c.hits + 1 }, some result)

/-- `ToolResultCache.set`, evaluated at clock instant `now`. -/
def cache_set (c : ToolResultCache) (now : Int) (tool_name : String)
    (payload : List (String × String)) (result : String) : ToolResultCache :=
  if !c.enabled then c
  else { c with cache := dictInsert c.cache (normalize_key tool_name payload) (result, now) }

/-! ## `session/session_manager.py` — restore and trailing repair

Content blocks are JSON dicts in the source; they are modelled as a sum.
A `tool_use` block's `id` may be absent or empty — both are falsy in Python
and are modelled as the empty string.  Non-dict list items and dict blocks of
any other type behave identically in every code path modelled here and share
the `other` constructor.  Result payloads (already-serialized JSON) are
opaque strings, with `json.dumps` the identity on that representation. -/

inductive Block where
  | text (t : String)
  | toolUse (id : String) (name : String) (input : List (String × String))
  | toolResult (tool_use_id : String) (content : String)
  | other
deriving Repr, DecidableEq

/-- A message `content` field: either a plain string or a block list. -/
inductive MsgContent where
  | str (s : String)
  | blocks (bs : List Block)
deriving Repr, DecidableEq

/-- One conversation message (`{"role": ..., "content": ...}`). -/
structure Message where
  role : String
  content : MsgContent
deriving Repr, DecidableEq

/-- A parsed event-log record, one constructor per `entry_type` the restore
loop dispatches on; `other` covers every unrecognized type (the loop ignores
those).  `Option String` fields model `entry.get(...)` results that may be
absent. -/
inductive Entry where
  | session_start (session_id : Option String) (timestamp : Option String)
  | model_source (value : Option String)
  | model_selected (model_id : Option String)
  | target_set (target : Option String)
  | knowledge_graph_updated (knowledge_graph : Option String)
  | user_message (content : String)
  | assistant_blocks (blocks : List Block)
  | tool_result (tool_use_id : String) (result : String)
  | tool_output (result : String)
  | other
deriving Repr, DecidableEq

/-- One line of the session `.jsonl` file: either a record `json.loads` can
parse, or a malformed line on which it raises. -/
inductive LogLine where
  | entry (e : Entry)
  | malformed
deriving Repr, DecidableEq

/-- The `self.metadata` dict fields touched during restore. -/
structure Metadata where
  session_id : Option String := none
  created_at : Option String := none
  model_source : Option String := none
  model_id : Option String := none
  target : Option String := none
  knowledge_graph : Option String := none
deriving Repr, DecidableEq

/-- The loop-carried state of `_restore_session`'s replay `for` loop. -/
structure RestoreState where
  metadata : Metadata := {}
  messages : List Message := []
  last_tool_use_ids : List String := []
  pending_tool_results : List (String × String) := []
deriving Repr, DecidableEq

/-- Truthy `tool_use` ids of an assistant block list, as collected by the
`assistant_blocks` branch (`block.get("type") == "tool_use" and block.get("id")`). -/
def collectToolUseIds (blocks : List Block) : List String :=
  blocks.filterMap (fun b =>
    match b with
    | .toolUse id _ _ => if id == "" then none else some id
    | _ => none)

/-- The body of `_restore_session`'s replay loop for one parsed record. -/
def replayEntry (st : RestoreState) : Entry → RestoreState
  | .session_start sid ts =>
    { st with metadata := { st.metadata with session_id := sid, created_at := ts } }
  | .model_source v =>
    { st with metadata := { st.metadata with model_source := v } }
  | .model_selected mid =>
    { st with metadata := { st.metadata with model_id := mid } }
  | .target_set t =>
    { st with metadata := { st.metadata with target := t } }
  | .knowledge_graph_updated kg =>
    { st with metadata := { st.metadata with knowledge_graph := kg } }
  | .user_message content =>
    -- first flush pending reconstructed tool results, then append the turn
    let st :=
      if !st.pending_tool_results.isEmpty && !st.last_tool_use_ids.isEmpty then
        let tool_result_blocks := st.last_tool_use_ids.filterMap (fun tool_id =>
          (st.pending_tool_results.lookup tool_id).map
            (fun r => Block.toolResult tool_id r))
        let msgs :=
          if !tool_result_blocks.isEmpty then
            st.messages ++ [{ role := "user", content := .blocks tool_result_blocks }]
          else st.messages
        { st with messages := msgs, pending_tool_results := [], last_tool_use_ids := [] }
      else st
    { st with messages := st.messages ++ [{ role := "user", content := .str content }] }
  | .assistant_blocks blocks =>
    { st with
      messages := st.messages ++ [{ role := "assistant", content := .blocks blocks }]
      last_tool_use_ids := collectToolUseIds blocks }
  | .tool_result tool_use_id result =>
    { st with
      messages := st.messages ++
        [{ role := "user", content := .blocks [Block.toolResult tool_use_id result] }]
      last_tool_use_ids := [] }
  | .tool_output result =>
    if !st.last_tool_use_ids.isEmpty && st.last_tool_use_ids.length == 1 then
      { st with pending_tool_results :=
          (st.pending_tool_results.filter
            (fun p => p.1 != st.last_tool_use_ids.headD "")) ++
          [(st.last_tool_use_ids.headD "", result)] }
    else st
  | .other => st

/-- The replay `for` loop over the file's lines; a line `json.loads` cannot
parse raises, aborting `_restore_session` (modelled as `Except.error`). -/
def replayLines (st : RestoreState) : List LogLine → Except Unit RestoreState
  | [] => .ok st
  | .malformed :: _ => .error ()
  | .entry e :: rest => replayLines (replayEntry st e) rest

/-- The first branch condition of the cleanup loop: an assistant message
whose list content contains a `tool_use` block. -/
def isAssistantToolUse (m : Message) : Bool :=
  m.role == "assistant" &&
    match m.content with
    | .blocks bs => bs.any (fun b => match b with | .toolUse _ _ _ => true | _ => false)
    | .str _ => false

/-- The second branch condition: a user message whose list content contains a
`tool_result` block. -/
def isUserToolResult (m : Message) : Bool :=
  m.role == "user" &&
    match m.content with
    | .blocks bs => bs.any (fun b => match b with | .toolResult _ _ => true | _ => false)
    | .str _ => false

/-- `_cleanup_incomplete_tool_requests`'s `while` loop, expressed on the
reversed message list (`l.head` is the conversation's last message):
pop trailing assistant tool requests; pop trailing orphaned user tool
results (keeping one whose immediate predecessor is an assistant message
holding a `tool_use`); stop at the first consistent message. -/
def cleanupRev : List Message → List Message
  | [] => []
  | m :: rest =>
    if isAssistantToolUse m then cleanupRev rest
    else if isUserToolResult m then
      match rest with
      | prev :: _ => if isAssistantToolUse prev then m :: rest else cleanupRev rest
      | [] => cleanupRev rest
    else m :: rest

/-- `SessionManager._cleanup_incomplete_tool_requests`. -/
def cleanup_incomplete_tool_requests (messages : List Message) : List Message :=
  (cleanupRev messages.reverse).reverse

/-- The synthetic notice `_check_and_truncate_restored_context` prepends. -/
def truncationNotice (old_count : Nat) : Message :=
  { role := "user"
    content := .str ("[SESSION RESTORED - Older messages truncated to fit context limits. Showing last 30 messages of "
      ++ toString old_count
      ++ " total. Use /summarize if you need context compression.]") }

/-- `SessionManager._check_and_truncate_restored_context`.  The estimated
token count is a character-count heuristic over serialized block payloads;
serialization detail is outside the block model, so the estimate is taken as
a parameter (the theorems hold for every estimator). -/
def check_and_truncate (estimated_tokens : Nat) (messages : List Message) :
    List Message :=
  if messages.isEmpty then messages
  else if estimated_tokens > 100000 then
    if messages.length > 30 then
      truncationNotice messages.length :: messages.drop (messages.length - 30)
    else messages
  else messages

/-- `SessionManager._restore_session`: replay every line, run the trailing
repair, then the size guard; a line the JSON parser rejects propagates as an
error.  `est` abstracts the 4-chars-per-token size estimate. -/
def restore_session (est : List Message → Nat) (log : List LogLine) :
    Except Unit (Metadata × List Message) :=
  (replayLines {} log).map (fun st =>
    let cleaned := cleanup_incomplete_tool_requests st.messages
    (st.metadata, check_and_truncate (est cleaned) cleaned))

/-- The tail pairing invariant of the reconstructed conversation, read off the
reversed message list: the last message is not an assistant tool request,
and a last user `tool_result` message is immediately preceded by an
assistant message containing a `tool_use` block. -/
def revTailInvariant : List Message → Bool
  | [] => true
  | m :: rest =>
    !isAssistantToolUse m &&
      (!isUserToolResult m ||
        (match rest with | prev :: _ => isAssistantToolUse prev | [] => false))

/-- Tail pairing invariant of a message sequence. -/
def tail_pairing_invariant (messages : List Message) : Bool :=
  revTailInvariant messages.reverse

/-! ## `ui/cli.py` — the autonomous loop

`_run_autonomous_loop` and `_handle_autonomous_tool_execution` are driven by
external oracles (the AI provider, the operator's approval prompt, the tool
executor, the wall clock).  One loop iteration's oracle outputs are packaged
in `IterInput`; the loop consumes a list of them and stops early on `break`.
Result dictionaries are modelled as association lists of JSON scalars.
Exception paths (keyboard interrupt, provider errors) are outside the model:
the supplied inputs represent successfully returned provider responses. -/

inductive PyVal where
  | pb (b : Bool)
  | ps (s : String)
deriving Repr, DecidableEq

/-- A tool-result dict as appended to the session. -/
abbrev PyDict := List (String × PyVal)

/-- The failure dict synthesized for a FORBIDDEN classification. -/
def forbiddenResult (reason : String) : PyDict :=
  [("success", .pb false),
   ("error", .ps "Action forbidden"),
   ("message", .ps ("Action blocked by safety controls: " ++ reason))]

/-- The failure dict synthesized when the operator denies approval. -/
def deniedResult : PyDict :=
  [("success", .pb false),
   ("error", .ps "User denied execution"),
   ("message", .ps "Operator denied destructive action")]

/-- Observable session/executor effects accumulated by the loop, plus the
manager state. -/
structure LoopState where
  mgr : AutonomousManager
  executorCalls : List (String × List (String × String)) := []
  toolResults : List (String × PyDict) := []
  assistantMessages : List (List Block) := []
deriving Repr, DecidableEq

/-- Oracle outputs consumed by one iteration of `_run_autonomous_loop`. -/
structure IterInput where
  now : Int
  blocks : List Block
  usage : Option (Int × Int)
  approval : String
  execResult : PyDict
deriving Repr, DecidableEq

/-- `tool_blocks = [b for b in blocks if b.get("type") == "tool_use"]`. -/
def toolUseBlocks (blocks : List Block) : List Block :=
  blocks.filter (fun b => match b with | .toolUse _ _ _ => true | _ => false)

/-- Field accessors of a proposed tool block
(`tool_block.get("name", "")`, `.get("input", {}) or {}`, `.get("id")`). -/
def blockName : Block → String
  | .toolUse _ name _ => name
  | _ => ""

def blockInput : Block → List (String × String)
  | .toolUse _ _ input => input
  | _ => []

def blockId : Block → String
  | .toolUse id _ _ => id
  | _ => ""

/-- `_handle_autonomous_tool_execution`: classify, then either synthesize a
failure (FORBIDDEN), prompt the operator (NEEDS_APPROVAL), or execute; the
executed path records the executor invocation and its result.  Returns the
updated state and the `approved` flag. -/
def handle_autonomous_tool_execution (clf : ActionClassifier) (st : LoopState)
    (tool_block : Block) (approvalReply : String) (execResult : PyDict) :
    LoopState × Bool :=
  let tool_name := blockName tool_block
  let tool_input := blockInput tool_block
  let tool_id := blockId tool_block
  let cr := classify_action clf tool_name tool_input
  if cr.1 == "FORBIDDEN" then
    ({ st with toolResults := st.toolResults ++ [(tool_id, forbiddenResult cr.2)] }, false)
  else
    let denied := cr.1 == "NEEDS_APPROVAL" && pyLower approvalReply.trim != "y"
    if denied then
      ({ st with toolResults := st.toolResults ++ [(tool_id, deniedResult)] }, false)
    else
      ({ st with
          executorCalls := st.executorCalls ++ [(tool_name, tool_input)]
          toolResults := st.toolResults ++ [(tool_id, execResult)] }, true)

/-- One pass through the body of `_run_autonomous_loop`'s `while`:
rate-limit, account tokens, then either finish (no tool proposed), execute
the first proposed tool, or block it and pause.  The returned `Bool` is
`true` when the loop proceeds to its next iteration. -/
def autonomousIteration (clf : ActionClassifier) (st : LoopState) (inp : IterInput) :
    LoopState × Bool :=
  let st := { st with mgr := (st.mgr.increment_iteration inp.now).1 }
  let st :=
    match inp.usage with
    | some (tin, tout) => { st with mgr := st.mgr.add_tokens (tin + tout) }
    | none => st
  let tool_blocks := toolUseBlocks inp.blocks
  match tool_blocks with
  | [] =>
    ({ st with assistantMessages := st.assistantMessages ++ [inp.blocks] }, false)
  | tool_block :: _ =>
    let st := { st with assistantMessages := st.assistantMessages ++ [inp.blocks] }
    let (st, approved) :=
      handle_autonomous_tool_execution clf st tool_block inp.approval inp.execResult
    if approved then (st, true)
    else ({ st with mgr := st.mgr.pauseReq }, false)

/-- `_run_autonomous_loop` restricted to the supplied window of provider
responses: iterate while `should_continue()` holds, stopping early when an
iteration breaks. -/
def run_autonomous_loop (clf : ActionClassifier) (st : LoopState) :
    List IterInput → LoopState
  | [] => st
  | inp :: rest =>
    if st.mgr.should_continue then
      let (st', continue_) := autonomousIteration clf st inp
      if continue_ then run_autonomous_loop clf st' rest else st'
    else st

/-! Section: theorems about the action classifier -/

lemma matchesDestructivePattern_empty : matchesDestructivePattern "" = false := by decide

lemma is_local_destructive_eq_true (command : String)
    (hd : matchesDestructivePattern command = true)
    (hf : LOCAL_FS_PATTERNS.any (containsSub command) = true) :
    is_local_destructive command = true := by
  have hne : (command == "") = false := by
    rcases h : command == "" with _ | _
    · rfl
    · exact absurd hd (by simp_all [matchesDestructivePattern_empty, eq_of_beq h])
  unfold is_local_destructive
  simp [hne, hd, hf]

/-- C4: an action whose command text matches a destructive pattern and a
local-filesystem pattern is classified FORBIDDEN with the local-destruction
reason, for every scope set (empty or not, in scope or not): the
local-destructive check precedes the scope check. -/
theorem local_destructive_forbidden_regardless_of_scope
    (clf : ActionClassifier) (tool_name : String)
    (tool_input : List (String × String))
    (hd : matchesDestructivePattern (tiGet tool_input "command") = true)
    (hf : LOCAL_FS_PATTERNS.any (containsSub (tiGet tool_input "command")) = true) :
    classify_action clf tool_name tool_input =
      ("FORBIDDEN", "Destructive action on local filesystem") := by
  unfold classify_action
  simp [is_local_destructive_eq_true _ hd hf]

/-- Witness for C4: `rm -rf /etc/passwd` with a scope set it is not in. -/
theorem local_destructive_forbidden_witness :
    matchesDestructivePattern "rm -rf /etc/passwd" = true
    ∧ LOCAL_FS_PATTERNS.any (containsSub "rm -rf /etc/passwd") = true
    ∧ classify_action ⟨["10.0.0.5"], ""⟩ "executor"
        [("command", "rm -rf /etc/passwd")] =
        ("FORBIDDEN", "Destructive action on local filesystem") :=
  ⟨by decide, by decide,
    local_destructive_forbidden_regardless_of_scope ⟨["10.0.0.5"], ""⟩ "executor"
      [("command", "rm -rf /etc/passwd")] (by decide) (by decide)⟩

/-- C5: with an empty scope set the out-of-scope check is skipped: a
destructive-but-not-locally-destructive command is NEEDS_APPROVAL, and no
action is ever FORBIDDEN for the scope reason. -/
theorem empty_scope_fail_open (clf : ActionClassifier)
    (hs : clf.scope_targets = []) :
    (∀ tool_name tool_input,
        is_destructive (tiGet tool_input "command") = true →
        is_local_destructive (tiGet tool_input "command") = false →
        classify_action clf tool_name tool_input =
          ("NEEDS_APPROVAL", "Destructive action requires approval"))
    ∧ (∀ tool_name tool_input,
        classify_action clf tool_name tool_input ≠
          ("FORBIDDEN", "Target is out of scope")) := by
  have hin : ∀ s, is_in_scope clf s = true := by
    intro s
    unfold is_in_scope
    simp [hs]
  constructor
  · intro tool_name tool_input hdest hloc
    unfold classify_action
    simp [hloc, hin, hdest]
  · intro tool_name tool_input
    unfold classify_action
    rcases h1 : is_local_destructive (tiGet tool_input "command") with _ | _
    · rcases h2 : is_destructive (tiGet tool_input "command") with _ | _ <;>
        simp [h1, h2, hin]
    · simp [h1]

/-- Witness for C5: `shutdown now` (destructive, not locally destructive)
under an empty scope set. -/
theorem empty_scope_fail_open_witness :
    (ActionClassifier.mk [] "").scope_targets = []
    ∧ classify_action ⟨[], ""⟩ "executor" [("command", "shutdown now")] =
        ("NEEDS_APPROVAL", "Destructive action requires approval") :=
  ⟨rfl, (empty_scope_fail_open ⟨[], ""⟩ rfl).1 "executor"
    [("command", "shutdown now")] (by decide) (by decide)⟩

/-- C10: with a non-empty scope set none of whose entries occurs in the
two-space blank string, an action with empty (or missing) `command`,
`target` and `url` parameters is FORBIDDEN as out of scope — whatever its
other parameter fields hold, since classification reads only those three. -/
theorem blank_fields_out_of_scope (clf : ActionClassifier) (tool_name : String)
    (tool_input : List (String × String))
    (hne : clf.scope_targets ≠ [])
    (hblank : ∀ s ∈ clf.scope_targets, containsSub "  " (pyLower s) = false)
    (hc : tiGet tool_input "command" = "")
    (ht : tiGet tool_input "target" = "")
    (hu : tiGet tool_input "url" = "") :
    classify_action clf tool_name tool_input =
      ("FORBIDDEN", "Target is out of scope") := by
  unfold classify_action
  rw [hc, ht, hu]
  have hemp : clf.scope_targets.isEmpty = false := by
    simpa [List.isEmpty_iff] using hne
  have hscope : is_in_scope clf (pyLower "  ") = false := by
    unfold is_in_scope
    rw [hemp]
    simp only [Bool.false_eq_true, if_false, List.any_eq_false]
    intro s hsmem
    simpa using hblank s hsmem
  simp [hscope, is_local_destructive]

/-- Witness for C10: scope `["example.com"]`, a tool call whose only
parameter is a `host` field. -/
theorem blank_fields_out_of_scope_witness :
    (["example.com"] ≠ ([] : List String))
    ∧ containsSub "  " (pyLower "example.com") = false
    ∧ classify_action ⟨["example.com"], ""⟩ "executor" [("host", "10.0.0.5")] =
        ("FORBIDDEN", "Target is out of scope") :=
  ⟨by decide, by decide,
    blank_fields_out_of_scope ⟨["example.com"], ""⟩ "executor" [("host", "10.0.0.5")]
      (by decide) (by intro s hs; fin_cases hs; decide)
      (by decide) (by decide) (by decide)⟩

/-! Section: theorems about the autonomous manager -/

lemma increment_iteration_fields (m : AutonomousManager) (t : Int) :
    ((m.increment_iteration t).1).active = m.active
    ∧ ((m.increment_iteration t).1).pause_requested = m.pause_requested
    ∧ ((m.increment_iteration t).1).max_iterations = m.max_iterations
    ∧ ((m.increment_iteration t).1).max_tokens = m.max_tokens
    ∧ ((m.increment_iteration t).1).tokens_used = m.tokens_used := by
  unfold AutonomousManager.increment_iteration
  cases ha : m.active <;> simp [ha]

lemma runIncrements_fields (ts : List Int) (m : AutonomousManager) :
    (runIncrements m ts).active = m.active
    ∧ (runIncrements m ts).pause_requested = m.pause_requested
    ∧ (runIncrements m ts).max_iterations = m.max_iterations
    ∧ (runIncrements m ts).max_tokens = m.max_tokens
    ∧ (runIncrements m ts).tokens_used = m.tokens_used := by
  induction ts generalizing m with
  | nil => simp [runIncrements]
  | cons t ts ih =>
    obtain ⟨h1, h2, h3, h4, h5⟩ := increment_iteration_fields m t
    obtain ⟨g1, g2, g3, g4, g5⟩ := ih (m.increment_iteration t).1
    exact ⟨g1.trans h1, g2.trans h2, g3.trans h3, g4.trans h4, g5.trans h5⟩

lemma runIncrements_iterations (ts : List Int) (m : AutonomousManager)
    (ha : m.active = true) :
    (runIncrements m ts).iterations = m.iterations + ts.length := by
  induction ts generalizing m with
  | nil => simp [runIncrements]
  | cons t ts ih =>
    have ha' : ((m.increment_iteration t).1).active = true :=
      (increment_iteration_fields m t).1.trans ha
    have hit : ((m.increment_iteration t).1).iterations = m.iterations + 1 := by
      unfold AutonomousManager.increment_iteration
      simp [ha]
    rw [runIncrements, ih _ ha', hit]
    simp only [List.length_cons]
    push_cast
    ring

lemma add_tokens_fields (m : AutonomousManager) (c : Int) :
    (m.add_tokens c).active = m.active
    ∧ (m.add_tokens c).pause_requested = m.pause_requested
    ∧ (m.add_tokens c).max_iterations = m.max_iterations
    ∧ (m.add_tokens c).max_tokens = m.max_tokens
    ∧ (m.add_tokens c).iterations = m.iterations := by
  unfold AutonomousManager.add_tokens
  cases ha : m.active <;> simp [ha]

lemma runAddTokens_fields (cs : List Int) (m : AutonomousManager) :
    (runAddTokens m cs).active = m.active
    ∧ (runAddTokens m cs).pause_requested = m.pause_requested
    ∧ (runAddTokens m cs).max_iterations = m.max_iterations
    ∧ (runAddTokens m cs).max_tokens = m.max_tokens
    ∧ (runAddTokens m cs).iterations = m.iterations := by
  induction cs generalizing m with
  | nil => simp [runAddTokens]
  | cons c cs ih =>
    obtain ⟨h1, h2, h3, h4, h5⟩ := add_tokens_fields m c
    obtain ⟨g1, g2, g3, g4, g5⟩ := ih (m.add_tokens c)
    exact ⟨g1.trans h1, g2.trans h2, g3.trans h3, g4.trans h4, g5.trans h5⟩

lemma runAddTokens_tokens (cs : List Int) (m : AutonomousManager)
    (ha : m.active = true) :
    (runAddTokens m cs).tokens_used = m.tokens_used + cs.sum := by
  induction cs generalizing m with
  | nil => simp [runAddTokens]
  | cons c cs ih =>
    have ha' : (m.add_tokens c).active = true := (add_tokens_fields m c).1.trans ha
    have ht : (m.add_tokens c).tokens_used = m.tokens_used + c := by
      unfold AutonomousManager.add_tokens
      simp [ha]
    rw [runAddTokens, ih _ ha', ht]
    simp [add_assoc]

lemma should_continue_iff (m : AutonomousManager) :
    m.should_continue = true ↔
      m.active = true ∧ m.pause_requested = false
      ∧ (optTruthy m.max_iterations = true → m.iterations < m.max_iterations.getD 0)
      ∧ (optTruthy m.max_tokens = true → m.tokens_used < m.max_tokens.getD 0) := by
  unfold AutonomousManager.should_continue
  rcases ha : m.active <;> rcases hp : m.pause_requested <;>
    rcases hti : optTruthy m.max_iterations <;> rcases htt : optTruthy m.max_tokens <;>
      simp [ha, hp, hti, htt]

/-- C8: with an iteration ceiling `N ≥ 1`, `should_continue` is still true
after fewer than `N` `record_iteration` calls following `start()` and false
after exactly `N`; with a token ceiling `T ≥ 1`, `should_continue` after
`start()` and a run of `add_tokens` calls holds exactly while the cumulative
spend is below `T`. -/
theorem ceilings_reached_exactly (N T d : Int) (ts cs : List Int)
    (hN : 1 ≤ N) (hT : 1 ≤ T) :
    (((ts.length : Int) < N →
        (runIncrements ((AutonomousManager.init (some N) none d).start) ts).should_continue
          = true)
      ∧ ((ts.length : Int) = N →
        (runIncrements ((AutonomousManager.init (some N) none d).start) ts).should_continue
          = false))
    ∧ ((runAddTokens ((AutonomousManager.init none (some T) d).start) cs).should_continue
        = true ↔ cs.sum < T) := by
  have hNne : N ≠ 0 := by omega
  have hTne : T ≠ 0 := by omega
  constructor
  · set m0 := (AutonomousManager.init (some N) none d).start with hm0
    have hstart : m0.active = true ∧ m0.pause_requested = false
        ∧ m0.max_iterations = some N ∧ m0.max_tokens = none ∧ m0.iterations = 0 := by
      simp [hm0, AutonomousManager.init, AutonomousManager.start]
    obtain ⟨f1, f2, f3, f4, f5⟩ := runIncrements_fields ts m0
    have hiter : (runIncrements m0 ts).iterations = (ts.length : Int) := by
      rw [runIncrements_iterations ts m0 hstart.1, hstart.2.2.2.2]
      simp
    have hiff := should_continue_iff (runIncrements m0 ts)
    rw [f1, f2, f3, f4, hiter, hstart.1, hstart.2.1, hstart.2.2.1, hstart.2.2.2.1] at hiff
    constructor
    · intro hk
      refine hiff.mpr ⟨rfl, rfl, ?_, ?_⟩
      · intro _
        simpa using hk
      · intro h
        exact absurd h (by simp [optTruthy])
    · intro hk
      rcases hb : (runIncrements m0 ts).should_continue with _ | _
      · rfl
      · have := (hiff.mp hb).2.2.1 (by simp [optTruthy, hNne])
        simp only [Option.getD_some] at this
        omega
  · set m0 := (AutonomousManager.init none (some T) d).start with hm0
    have hstart : m0.active = true ∧ m0.pause_requested = false
        ∧ m0.max_iterations = none ∧ m0.max_tokens = some T ∧ m0.tokens_used = 0 := by
      simp [hm0, AutonomousManager.init, AutonomousManager.start]
    obtain ⟨f1, f2, f3, f4, f5⟩ := runAddTokens_fields cs m0
    have htok : (runAddTokens m0 cs).tokens_used = cs.sum := by
      rw [runAddTokens_tokens cs m0 hstart.1, hstart.2.2.2.2]
      simp
    have hiff := should_continue_iff (runAddTokens m0 cs)
    rw [f1, f2, f3, f4, htok, hstart.1, hstart.2.1, hstart.2.2.1, hstart.2.2.2.1] at hiff
    rw [hiff]
    constructor
    · intro h
      simpa using h.2.2.2 (by simp [optTruthy, hTne])
    · intro h
      refine ⟨rfl, rfl, ?_, ?_⟩
      · intro hfalse
        exact absurd hfalse (by simp [optTruthy])
      · intro _
        simpa using h

/-- Witness for C8: ceiling 2 reached after exactly two iterations; token
ceiling 5 reached by a spend of 5. -/
theorem ceilings_reached_exactly_witness :
    ((1 : Int) ≤ 2 ∧ (1 : Int) ≤ 5)
    ∧ (runIncrements ((AutonomousManager.init (some 2) none 0).start) [0, 1]).should_continue
        = false
    ∧ (runAddTokens ((AutonomousManager.init none (some 5) 0).start) [3, 2]).should_continue
        = false := by
  refine ⟨⟨by decide, by decide⟩, ?_, ?_⟩
  · exact (ceilings_reached_exactly 2 5 0 [0, 1] [3, 2] (by decide) (by decide)).1.2
      (by decide)
  · have h := (ceilings_reached_exactly 2 5 0 [0, 1] [3, 2] (by decide) (by decide)).2
    rcases hb : (runAddTokens ((AutonomousManager.init none (some 5) 0).start)
        [3, 2]).should_continue with _ | _
    · rfl
    · exact absurd (h.mp hb) (by decide)

/-- C9: ceilings constructed as `0` are falsy in Python and therefore treated
as absent: after `start()`, any run of iterations and token additions leaves
`should_continue` true. -/
theorem zero_ceilings_mean_unlimited (d : Int) (ts cs : List Int) :
    (runAddTokens
        (runIncrements ((AutonomousManager.init (some 0) (some 0) d).start) ts)
        cs).should_continue = true := by
  set m0 := (AutonomousManager.init (some 0) (some 0) d).start with hm0
  have hstart : m0.active = true ∧ m0.pause_requested = false
      ∧ m0.max_iterations = some 0 ∧ m0.max_tokens = some 0 := by
    simp [hm0, AutonomousManager.init, AutonomousManager.start]
  obtain ⟨f1, f2, f3, f4, _⟩ := runIncrements_fields ts m0
  obtain ⟨g1, g2, g3, g4, _⟩ := runAddTokens_fields cs (runIncrements m0 ts)
  unfold AutonomousManager.should_continue
  rw [g1, g2, g3, g4, f1, f2, f3, f4, hstart.1, hstart.2.1, hstart.2.2.1, hstart.2.2.2]
  simp [optTruthy]

/-- Counterexample for C7: a manager reused for a second run keeps the first
run's `last_iteration_time`, so the very first `record_iteration` of the
second run sleeps (here 1 of the 2-second delay), contrary to the claim. -/
theorem first_iteration_sleep_counterexample :
    ((((((AutonomousManager.init none none 2).start).increment_iteration 5).1.stop).start).increment_iteration 6).2
      = 1 := by decide

/-- C7 amended: on a freshly constructed manager the first
`record_iteration` after `start()` never sleeps (its stored last-iteration
time is 0); a reused instance retains the previous run's timestamp, which
`start()` does not reset, so its first iteration may sleep. -/
theorem first_iteration_no_sleep_when_fresh
    (max_iterations max_tokens : Option Int) (d now : Int) :
    (((AutonomousManager.init max_iterations max_tokens d).start).increment_iteration now).2
      = 0 := by
  simp [AutonomousManager.init, AutonomousManager.start,
    AutonomousManager.increment_iteration]

/-! Section: theorems about session restore -/

lemma revTailInvariant_cleanupRev (l : List Message) :
    revTailInvariant (cleanupRev l) = true := by
  induction l with
  | nil => rfl
  | cons m rest ih =>
    unfold cleanupRev
    rcases hA : isAssistantToolUse m with _ | _
    · rcases hU : isUserToolResult m with _ | _
      · simp [revTailInvariant, hA, hU]
      · cases rest with
        | nil => simpa [hA, hU] using ih
        | cons prev tl =>
          rcases hP : isAssistantToolUse prev with _ | _
          · simpa [hA, hU, hP] using ih
          · simp [revTailInvariant, hA, hU, hP]
    · simpa [hA] using ih

lemma revTailInvariant_eq_take2 (l : List Message) :
    revTailInvariant l = revTailInvariant (l.take 2) := by
  match l with
  | [] => rfl
  | [m] => rfl
  | m :: p :: t => rfl

lemma cleanup_tail_invariant (x : List Message) :
    tail_pairing_invariant (cleanup_incomplete_tool_requests x) = true := by
  unfold tail_pairing_invariant cleanup_incomplete_tool_requests
  rw [List.reverse_reverse]
  exact revTailInvariant_cleanupRev x.reverse

lemma tail_pairing_invariant_truncate (est : Nat) (msgs : List Message)
    (h : tail_pairing_invariant msgs = true) :
    tail_pairing_invariant (check_and_truncate est msgs) = true := by
  unfold check_and_truncate
  split_ifs with h1 h2 h3
  · exact h
  · unfold tail_pairing_invariant at h ⊢
    have hD : 2 ≤ (msgs.drop (msgs.length - 30)).reverse.length := by
      simp only [List.length_reverse, List.length_drop]
      omega
    have hrev : msgs.reverse = (msgs.drop (msgs.length - 30)).reverse
        ++ (msgs.take (msgs.length - 30)).reverse := by
      rw [← List.reverse_append, List.take_append_drop]
    rw [List.reverse_cons, revTailInvariant_eq_take2,
      List.take_append_of_le_length hD]
    rw [revTailInvariant_eq_take2, hrev, List.take_append_of_le_length hD] at h
    exact h
  · exact h
  · exact h

/-- C1: whenever `restore` succeeds, the reconstructed message sequence ends
well: its last message is not an assistant turn holding a `tool_use` block,
and a last user turn holding a `tool_result` block is immediately preceded
by an assistant message holding a `tool_use` block — the trailing-repair
pass drops offending tail messages and stops at the first consistent one. -/
theorem restore_satisfies_tail_invariant (est : List Message → Nat)
    (log : List LogLine) (md : Metadata) (msgs : List Message)
    (h : restore_session est log = .ok (md, msgs)) :
    tail_pairing_invariant msgs = true := by
  unfold restore_session at h
  rcases hr : replayLines ({} : RestoreState) log with e | st
  · rw [hr] at h
    exact Except.noConfusion h
  · rw [hr] at h
    simp only [Except.map, Except.ok.injEq, Prod.mk.injEq] at h
    rw [← h.2]
    exact tail_pairing_invariant_truncate _ _ (cleanup_tail_invariant st.messages)

/-- The zero size estimator used by the concrete restore scenarios. -/
def estZero : List Message → Nat := fun _ => 0

/-- A two-record log produced by an `assistant_blocks` append followed by a
`tool_result` append. -/
def demoLog : List LogLine :=
  [.entry (.assistant_blocks [.toolUse "t1" "executor" [("command", "nmap example.com")]]),
   .entry (.tool_result "t1" "ok")]

/-- The message sequence `demoLog` restores to. -/
def demoMsgs : List Message :=
  [{ role := "assistant"
     content := .blocks [.toolUse "t1" "executor" [("command", "nmap example.com")]] },
   { role := "user", content := .blocks [.toolResult "t1" "ok"] }]

/-- Witness for C1: restoring `demoLog` succeeds and the result satisfies the
tail pairing invariant. -/
theorem restore_satisfies_tail_invariant_witness :
    restore_session estZero demoLog = .ok ({}, demoMsgs)
    ∧ tail_pairing_invariant demoMsgs = true :=
  ⟨rfl, restore_satisfies_tail_invariant estZero demoLog {} demoMsgs rfl⟩

lemma replayLines_error_iff (log : List LogLine) (st : RestoreState) :
    replayLines st log = .error () ↔ LogLine.malformed ∈ log := by
  induction log generalizing st with
  | nil => simp [replayLines]
  | cons l rest ih =>
    cases l with
    | malformed => simp [replayLines]
    | entry e => simp [replayLines, ih]

/-- A log whose middle line is not parseable JSON, flanked by well-formed
records. -/
def corruptLog : List LogLine :=
  [.entry (.session_start (some "s1") (some "2024-01-01T00:00:00Z")),
   .malformed,
   .entry (.user_message "hello")]

/-- Counterexample for C3: the corrupt middle line of `corruptLog` is not
skipped; `json.loads` raises and the whole restoration aborts instead of
rebuilding the session-start metadata and the user message around it. -/
theorem corrupt_line_aborts_restore :
    restore_session estZero corruptLog = .error () := rfl

/-- C3 amended: a malformed line is never skipped — restoration fails
exactly when the log contains one, and succeeds (rebuilding from all
records) only for fully well-formed logs. -/
theorem restore_error_iff_malformed (est : List Message → Nat)
    (log : List LogLine) :
    restore_session est log = .error () ↔ LogLine.malformed ∈ log := by
  rw [← replayLines_error_iff log {}]
  unfold restore_session
  rcases hr : replayLines ({} : RestoreState) log with e | st
  · cases e
    simp [Except.map]
  · simp [Except.map]

/-! Section: theorems about the autonomous loop -/

/-- C2: when the first proposed tool block of an iteration classifies
FORBIDDEN, the loop never invokes the executor for it, appends the
synthesized failure result (success `False`, message carrying the
classification reason) as that call's result, requests a pause, and performs
no further iteration (processing any remaining provider responses is
equivalent to stopping after this one). -/
theorem forbidden_blocks_execution_and_pauses (clf : ActionClassifier)
    (st : LoopState) (inp : IterInput) (rest : List IterInput)
    (tb : Block) (tbs : List Block)
    (hrun : st.mgr.should_continue = true)
    (hblocks : toolUseBlocks inp.blocks = tb :: tbs)
    (hcls : (classify_action clf (blockName tb) (blockInput tb)).1 = "FORBIDDEN") :
    (run_autonomous_loop clf st (inp :: rest)).executorCalls = st.executorCalls
    ∧ (run_autonomous_loop clf st (inp :: rest)).toolResults =
        st.toolResults ++ [(blockId tb,
          forbiddenResult (classify_action clf (blockName tb) (blockInput tb)).2)]
    ∧ (run_autonomous_loop clf st (inp :: rest)).mgr.pause_requested = true
    ∧ run_autonomous_loop clf st (inp :: rest) = run_autonomous_loop clf st [inp] := by
  obtain ⟨now, blocks, usage, approval, execResult⟩ := inp
  have hbeq : ((classify_action clf (blockName tb) (blockInput tb)).1 == "FORBIDDEN")
      = true := by simp [hcls]
  rcases usage with _ | ⟨a, b⟩ <;>
    simp [run_autonomous_loop, autonomousIteration, handle_autonomous_tool_execution,
      hrun, hblocks, hbeq, AutonomousManager.pauseReq]

/-- Scope configuration of the concrete autonomous-loop scenario. -/
def cliClf : ActionClassifier := ⟨["example.com"], ""⟩

/-- Freshly started loop state of the concrete scenario. -/
def cliState0 : LoopState := { mgr := (AutonomousManager.init none none 2).start }

/-- A provider response proposing a locally destructive command. -/
def cliForbiddenInput : IterInput :=
  { now := 0
    blocks := [.toolUse "t9" "executor" [("command", "rm -rf /etc/passwd")]]
    usage := none
    approval := ""
    execResult := [] }

/-- Witness for C2: running the loop on the forbidden proposal executes
nothing and pauses. -/
theorem forbidden_blocks_execution_and_pauses_witness :
    cliState0.mgr.should_continue = true
    ∧ (run_autonomous_loop cliClf cliState0 [cliForbiddenInput]).executorCalls = []
    ∧ (run_autonomous_loop cliClf cliState0 [cliForbiddenInput]).mgr.pause_requested
        = true := by
  refine ⟨by decide, ?_, ?_⟩
  · exact (forbidden_blocks_execution_and_pauses cliClf cliState0 cliForbiddenInput []
      (Block.toolUse "t9" "executor" [("command", "rm -rf /etc/passwd")]) []
      (by decide) (by decide) (by decide)).1
  · exact (forbidden_blocks_execution_and_pauses cliClf cliState0 cliForbiddenInput []
      (Block.toolUse "t9" "executor" [("command", "rm -rf /etc/passwd")]) []
      (by decide) (by decide) (by decide)).2.2.1

/-! Section: theorems about the tool result cache -/

instance : IsTotal (String × String) pairLe := ⟨fun a b => by
  unfold pairLe
  rcases lt_trichotomy a.1 b.1 with h | h | h
  · exact .inl (.inl h)
  · rcases le_total a.2 b.2 with h2 | h2
    · exact .inl (.inr ⟨h, h2⟩)
    · exact .inr (.inr ⟨h.symm, h2⟩)
  · exact .inr (.inl h)⟩

instance : IsTrans (String × String) pairLe := ⟨fun a b c hab hbc => by
  unfold pairLe at *
  rcases hab with h | ⟨h1, h2⟩ <;> rcases hbc with g | ⟨g1, g2⟩
  · exact .inl (h.trans g)
  · exact .inl (lt_of_lt_of_eq h g1)
  · exact .inl (lt_of_eq_of_lt h1 g)
  · exact .inr ⟨h1.trans g1, h2.trans g2⟩⟩

instance : IsAntisymm (String × String) pairLe := ⟨fun a b hab hba => by
  rcases hab with h | ⟨h1, h2⟩ <;> rcases hba with g | ⟨g1, g2⟩
  · exact absurd g (lt_asymm h)
  · exact absurd (g1 ▸ h) (lt_irrefl _)
  · exact absurd (h1 ▸ g) (lt_irrefl _)
  · exact Prod.ext_iff.mpr ⟨h1, le_antisymm h2 g2⟩⟩

lemma insertionSort_pairLe_perm_eq {l₁ l₂ : List (String × String)}
    (h : l₁.Perm l₂) :
    l₁.insertionSort pairLe = l₂.insertionSort pairLe :=
  List.eq_of_perm_of_sorted
    ((List.perm_insertionSort pairLe l₁).trans
      (h.trans (List.perm_insertionSort pairLe l₂).symm))
    (List.sorted_insertionSort pairLe l₁)
    (List.sorted_insertionSort pairLe l₂)

lemma normalize_key_perm (tool_name : String) {a b : List (String × String)}
    (h : a.Perm b) : normalize_key tool_name a = normalize_key tool_name b := by
  unfold normalize_key dumpsSorted
  rw [insertionSort_pairLe_perm_eq h]

lemma lookup_map_replace (k : String) (v : String × Int)
    (l : List (String × (String × Int))) :
    ((l.map (fun p => if p.1 == k then (k, v) else p)).lookup k)
      = (l.lookup k).map (fun _ => v) := by
  induction l with
  | nil => rfl
  | cons p l ih =>
    rcases hp : (p.1 == k) with _ | _
    · have hk : (k == p.1) = false := by
        rw [beq_eq_false_iff_ne] at hp ⊢
        exact fun h => hp h.symm
      have hif : (if p.1 == k then (k, v) else p) = p := by simp [hp]
      rw [List.map_cons, hif, List.lookup_cons, List.lookup_cons, hk]
      simpa using ih
    · have hk : p.1 = k := eq_of_beq hp
      have hif : (if p.1 == k then (k, v) else p) = (k, v) := by simp [hp]
      rw [List.map_cons, hif, List.lookup_cons, List.lookup_cons, hk]
      simp

lemma lookup_append_single (k : String) (v : String × Int)
    (l : List (String × (String × Int))) (h : l.lookup k = none) :
    ((l ++ [(k, v)]).lookup k) = some v := by
  induction l with
  | nil => simp [List.lookup_cons]
  | cons p l ih =>
    rcases hk : (k == p.1) with _ | _
    · rw [List.lookup_cons, hk] at h
      simp only [Bool.false_eq_true, if_false] at h
      rw [List.cons_append, List.lookup_cons, hk]
      simpa using ih h
    · rw [List.lookup_cons, hk] at h
      simp at h

lemma lookup_dictInsert_self (l : List (String × (String × Int))) (k : String)
    (v : String × Int) : (dictInsert l k v).lookup k = some v := by
  unfold dictInsert
  rcases ho : l.lookup k with _ | x
  · rw [if_neg (by simp [ho])]
    exact lookup_append_single k v l ho
  · rw [if_pos (by simp [ho])]
    rw [lookup_map_replace k v l, ho]
    rfl

lemma lookup_dictErase_self (l : List (String × (String × Int))) (k : String) :
    (dictErase l k).lookup k = none := by
  unfold dictErase
  induction l with
  | nil => rfl
  | cons p l ih =>
    rcases hp : (p.1 != k) with _ | _
    · rw [List.filter_cons, hp]
      simpa using ih
    · have hne : (k == p.1) = false := by
        rw [bne_iff_ne] at hp
        rw [beq_eq_false_iff_ne]
        exact fun h => hp h.symm
      rw [List.filter_cons, hp]
      simp only [if_true]
      rw [List.lookup_cons, hne]
      simpa using ih

/-- C6: for an enabled cache (with its non-negative TTL), `set` followed by
`get` with the same arguments — in any key order — returns the stored
payload at the same instant; a `get` returns a payload only while the entry's
age is within the TTL; and a `get` after the TTL has elapsed misses and
removes the entry. -/
theorem cache_roundtrip_and_ttl (c : ToolResultCache) (tool_name : String)
    (args args' : List (String × String)) (r : String) (t tg : Int)
    (hen : c.enabled = true) (httl : 0 ≤ c.ttl_seconds) (hperm : args.Perm args') :
    ((cache_get (cache_set c t tool_name args r) t tool_name args').2 = some r)
    ∧ (∀ x, (cache_get (cache_set c t tool_name args r) tg tool_name args').2 = some x →
        tg - t ≤ c.ttl_seconds ∧ x = r)
    ∧ (tg - t > c.ttl_seconds →
        (cache_get (cache_set c t tool_name args r) tg tool_name args').2 = none
        ∧ ((cache_get (cache_set c t tool_name args r) tg tool_name args').1.cache.lookup
            (normalize_key tool_name args') = none)) := by
  have hkey : normalize_key tool_name args' = normalize_key tool_name args :=
    (normalize_key_perm tool_name hperm).symm
  have hset : cache_set c t tool_name args r =
      { c with cache := dictInsert c.cache (normalize_key tool_name args) (r, t) } := by
    unfold cache_set
    simp [hen]
  have hlook : (dictInsert c.cache (normalize_key tool_name args) (r, t)).lookup
      (normalize_key tool_name args') = some (r, t) := by
    rw [hkey]
    exact lookup_dictInsert_self _ _ _
  refine ⟨?_, ?_, ?_⟩
  · simp [cache_get, hset, hen, hlook, show ¬t - t > c.ttl_seconds by omega,
      show ¬c.ttl_seconds < 0 by omega]
  · intro x hx
    simp only [cache_get, hset, hen, Bool.not_true, Bool.false_eq_true, if_false,
      hlook] at hx
    by_cases hgt : tg - t > c.ttl_seconds
    · simp [hgt] at hx
    · simp [hgt] at hx
      exact ⟨by omega, hx.symm⟩
  · intro hgt
    constructor
    · simp [cache_get, hset, hen, hlook, hgt]
    · simpa [cache_get, hset, hen, hlook, hgt] using
        lookup_dictErase_self (dictInsert c.cache (normalize_key tool_name args) (r, t))
          (normalize_key tool_name args')

/-- The enabled 300-second cache of the concrete scenario. -/
def cacheDemo : ToolResultCache := ToolResultCache.init 300 true

/-- Witness for C6: storing under one key order and reading under the other
returns the stored payload. -/
theorem cache_roundtrip_and_ttl_witness :
    cacheDemo.enabled = true ∧ (0 : Int) ≤ cacheDemo.ttl_seconds
    ∧ ([("target", "a.com"), ("port", "80")] : List (String × String)).Perm
        [("port", "80"), ("target", "a.com")]
    ∧ (cache_get (cache_set cacheDemo 0 "nikto" [("target", "a.com"), ("port", "80")] "res")
        0 "nikto" [("port", "80"), ("target", "a.com")]).2 = some "res" := by
  refine ⟨rfl, by decide, by decide, ?_⟩
  exact (cache_roundtrip_and_ttl cacheDemo "nikto"
    [("target", "a.com"), ("port", "80")] [("port", "80"), ("target", "a.com")]
    "res" 0 0 rfl (by decide) (by decide)).1

end PwnPilot
